import Mathlib

/-!
Verification of the word/emotion frequency aggregation engine of
hydrateTweet-crunch, embedded from
src/hydrateTweet-crunch/processors/calc_words_frequency.py.

Python dicts are insertion ordered, so both the per-emotion word counters
and the top-level words_dict are modelled as association lists in which a
new key is appended at the end and an existing key is updated in place.
Python's sorted is a stable sort, so the ranking sort is modelled as a
stable insertion sort, descending on the count component.
Float division in the ranked rows is modelled with rational numbers.
-/

/-- The fixed 10-tag vocabulary RELEVANT_EMOTIONS of the source. -/
def RELEVANT_EMOTIONS : List String :=
  ["positive", "negative", "anger", "anticipation", "disgust", "fear",
   "joy", "sadness", "surprise", "trust"]

/-- The fields of a tweet record read by the aggregator:
tweet['full_text'], str(tweet['user']['id']) and tweet['lang']
(the latter read only from the first record of a dump). -/
structure Tweet where
  full_text : String
  user_id : String
  lang : String
  deriving DecidableEq, Repr

/-- Modelled from the spec: the loaded emotion lexicon interface of the
emotion_lexicon module (not under src/).  tokenize(text) yields normalized
tokens; emotionsOfWord composes getEmotionsOfWord with getEmotionName, so
it returns the (set of) emotion names of a word, possibly empty. -/
structure Lexicon where
  tokenize : String → List String
  emotionsOfWord : String → List String

/-- The stats['performance']['input'] counters of the source (start and
end times are not modelled). -/
structure Stats where
  words : Nat
  tweets : Nat
  deriving DecidableEq, Repr

/-- One per-emotion word counter words_dict[emotion]: a Python dict from
word to count, kept in insertion order. -/
abbrev WordCounter := List (String × Nat)

/-- The source's per-word update: if the word is absent it is inserted at
the end with count 1, otherwise its count is incremented in place. -/
def bumpWord : WordCounter → String → WordCounter
  | [], w => [(w, 1)]
  | (w', n) :: rest, w =>
    if w' = w then (w', n + 1) :: rest else (w', n) :: bumpWord rest w

/-- Dict lookup words[word], with default 0 for an absent key. -/
def lookupCount : WordCounter → String → Nat
  | [], _ => 0
  | (w', n) :: rest, w => if w' = w then n else lookupCount rest w

/-- The emotion-keyed part of words_dict, in insertion order. -/
abbrev EmotionCounters := List (String × WordCounter)

/-- Dict lookup words_dict[emotion], with default empty for an absent key. -/
def lookupEmo : EmotionCounters → String → WordCounter
  | [], _ => []
  | (e', c) :: rest, e => if e' = e then c else lookupEmo rest e

/-- In-place update of one emotion's word counter. -/
def updateEmotion (cs : EmotionCounters) (e : String) (w : String) : EmotionCounters :=
  cs.map (fun p => if p.1 = e then (p.1, bumpWord p.2 w) else p)

/-- The words_dict of the source: the ten per-emotion counters plus the
integer entries words_dict['words'] and words_dict['tweets']. -/
structure WordsDict where
  counters : EmotionCounters
  words : Nat
  tweets : Nat
  deriving DecidableEq, Repr

/-- words_dict as initialized in main: every relevant emotion mapped to an
empty dict, and the two totals set to 0. -/
def initWordsDict : WordsDict :=
  { counters := RELEVANT_EMOTIONS.map (fun e => (e, [])), words := 0, tweets := 0 }

/-- The stats counters as initialized in main. -/
def initStats : Stats := { words := 0, tweets := 0 }

/-- The mutable state threaded through the aggregation: stats and words_dict. -/
abbrev AggState := Stats × WordsDict

/-- The inner loop of process_tweet over the emotions of one token: each
emotion name belonging to RELEVANT_EMOTIONS updates that emotion's word
counter for the token. -/
def applyEmotions (word : String) (emotions : List String) (cs : EmotionCounters) : EmotionCounters :=
  emotions.foldl (fun cs emotion =>
    if emotion ∈ RELEVANT_EMOTIONS then updateEmotion cs emotion word else cs) cs

/-- The body of the token loop of process_tweet for one token: if the
token's emotion set is non-empty both word totals are incremented once,
then every relevant emotion of the token updates its word counter. -/
def processWord (lex : Lexicon) (st : AggState) (word : String) : AggState :=
  let emotions := lex.emotionsOfWord word
  let st1 :=
    if emotions.isEmpty then st
    else ({ st.1 with words := st.1.words + 1 }, { st.2 with words := st.2.words + 1 })
  (st1.1, { st1.2 with counters := applyEmotions word emotions st1.2.counters })

/-- process_tweet of the source: skip the tweet when a users file is set
and the author is not among the valid users; otherwise process every token
of the full text and finally increment both tweet totals. -/
def process_tweet (lex : Lexicon) (usersFileSet : Bool) (valid_users : List String)
    (tweet : Tweet) (st : AggState) : AggState :=
  if usersFileSet = true ∧ tweet.user_id ∉ valid_users then st
  else
    let st2 := (lex.tokenize tweet.full_text).foldl (processWord lex) st
    ({ st2.1 with tweets := st2.1.tweets + 1 }, { st2.2 with tweets := st2.2.tweets + 1 })

/-- Stable insertion of one entry into a list sorted descending by count:
the entry goes past every strictly greater count and in front of equal
counts, as in Python's stable sorted with reverse=True. -/
def insertDesc (x : String × Nat) : List (String × Nat) → List (String × Nat)
  | [] => [x]
  | y :: ys => if x.2 < y.2 then y :: insertDesc x ys else x :: y :: ys

/-- Stable sort of a word counter, descending by occurrence count,
modelling sorted(words.items(), key count, reverse=True). -/
def sortDescStable : List (String × Nat) → List (String × Nat)
  | [] => []
  | x :: xs => insertDesc x (sortDescStable xs)

/-- One ranked output row of get_first_n_words. -/
structure RankedRow where
  word : String
  occurrences : Nat
  occ_words : ℚ
  occ_tweets : ℚ
  emotion : String
  deriving DecidableEq, Repr

/-- The rows yielded for one emotion: the first n_words words of the
counter sorted descending by count (all of them when fewer are recorded),
each with its count and the two ratios over the run totals. -/
def rankEmotion (wd : WordsDict) (n_words : Int) (emotion : String)
    (words : WordCounter) : List RankedRow :=
  let sorted_words := (sortDescStable words).map Prod.fst
  let k : Int :=
    if (sorted_words.length : Int) ≥ n_words then n_words else (sorted_words.length : Int)
  (sorted_words.take k.toNat).map (fun word =>
    { word := word
      occurrences := lookupCount words word
      occ_words := (lookupCount words word : ℚ) / (wd.words : ℚ)
      occ_tweets := (lookupCount words word : ℚ) / (wd.tweets : ℚ)
      emotion := emotion })

/-- The loop of get_first_n_words over the items of words_dict, keeping
only keys that are relevant emotions.  In the model the 'words' and
'tweets' integer entries live outside the counters list, but the
membership test of the source is kept. -/
def rankAll (wd : WordsDict) (n_words : Int) : EmotionCounters → List RankedRow
  | [] => []
  | (e, c) :: rest =>
    if e ∈ RELEVANT_EMOTIONS then rankEmotion wd n_words e c ++ rankAll wd n_words rest
    else rankAll wd n_words rest

/-- get_first_n_words of the source, as the list of all yielded rows. -/
def get_first_n_words (wd : WordsDict) (n_words : Int) : List RankedRow :=
  rankAll wd n_words wd.counters

/-- Abstraction of the users file handed to get_valid_users: whether the
path exists, and the outcome of reading it as newline-delimited JSON
objects and as a csv table.  A parse of either format yields the list of
records, each record reduced to its id_str field (none when the record
has no such field); a failed parse is none. -/
structure UsersFileContent where
  fileExists : Bool
  jsonRecords : Option (List (Option String))
  csvRecords : Option (List (Option String))
  deriving DecidableEq, Repr

/-- The Python value returned by get_valid_users: a set of id strings
built by the JSON branch, the empty dict literal built by the csv branch,
or None. -/
inductive ValidUsers where
  | usersSet : List String → ValidUsers
  | emptyDict : ValidUsers
  | noneVal : ValidUsers
  deriving DecidableEq, Repr

/-- The JSON branch of get_valid_users: collect user['id_str'] of every
record; a record without the field raises KeyError, which aborts the whole
branch. -/
def jsonIds : List (Option String) → Option (List String)
  | [] => some []
  | some s :: rest => (jsonIds rest).map (fun l => s :: l)
  | none :: _ => none

/-- The csv fallback branch of get_valid_users.  The source initializes
valid_users to the dict literal and then calls .add on it, so the first
record raises AttributeError, swallowed by the bare except which logs and
falls through to return None; only a csv with zero records reaches the
return statement, yielding the empty dict. -/
def csvFallback (f : UsersFileContent) : ValidUsers :=
  match f.csvRecords with
  | some [] => ValidUsers.emptyDict
  | some (_ :: _) => ValidUsers.noneVal
  | none => ValidUsers.noneVal

/-- get_valid_users of the source. -/
def get_valid_users (f : UsersFileContent) : ValidUsers :=
  if f.fileExists = true then
    match f.jsonRecords with
    | some recs =>
      match jsonIds recs with
      | some ids => ValidUsers.usersSet ids
      | none => csvFallback f
    | none => csvFallback f
  else ValidUsers.noneVal

/-- Python truthiness of the value returned by get_valid_users, as tested
by process_lines. -/
def truthy : ValidUsers → Bool
  | ValidUsers.usersSet s => !s.isEmpty
  | ValidUsers.emptyDict => false
  | ValidUsers.noneVal => false

/-- The list of identifiers carried by a truthy get_valid_users result. -/
def usersList : ValidUsers → List String
  | ValidUsers.usersSet s => s
  | _ => []

/-- The arguments of the subcommand that the engine reads: the optional
users file and the n-words bound (an int, default 30). -/
structure Args where
  users_file : Option UsersFileContent
  n_words : Int

/-- The users-file phase of process_lines: when no users file is
configured, processing continues unfiltered; when one is configured,
get_valid_users is called and processing continues with the filter exactly
when its result is truthy, otherwise the run is aborted (none). -/
def checkUsers (args : Args) : Option (Bool × List String) :=
  match args.users_file with
  | none => some (false, [])
  | some f =>
    let vu := get_valid_users f
    if truthy vu = true then some (true, usersList vu) else none

/-- The aggregation loop of process_lines: process the first tweet, then
every remaining tweet of the dump. -/
def runDump (lex : Lexicon) (ufSet : Bool) (vu : List String) (first : Tweet)
    (rest : List Tweet) (st : AggState) : AggState :=
  rest.foldl (fun s t => process_tweet lex ufSet vu t s)
    (process_tweet lex ufSet vu first st)

/-- process_lines of the source: read the first record for its language;
if a users file is configured load it and abort (returning None) when the
result is falsy; initialize the lexicon for the language, aborting when
none is available; otherwise process the first tweet and then every
remaining tweet, returning the language.  The lexicon registry
initEmotionLexicon is modelled as the function lexFor from a language to
an optional lexicon, per the spec contract initialize(language) -> bool. -/
def process_lines (lexFor : String → Option Lexicon) (args : Args)
    (dump : List Tweet) (st : AggState) : Option String × AggState :=
  match dump with
  | [] => (none, st)
  | first :: rest =>
    match checkUsers args with
    | none => (none, st)
    | some (ufSet, vu) =>
      match lexFor first.lang with
      | some lex => (some first.lang, runDump lex ufSet vu first rest st)
      | none => (none, st)

/-- The observable outcome of main: either the early exit(1) on an invalid
n-words configuration, or the detected language, final stats, final
words_dict and the ranked rows written to the output. -/
inductive RunResult where
  | configError : RunResult
  | ok : Option String → Stats → WordsDict → List RankedRow → RunResult
  deriving DecidableEq, Repr

/-- main of the source restricted to the aggregation engine (the name main
is reserved in Lean): reject a non-positive n-words before any work,
otherwise run process_lines from the freshly initialized state and collect
the rows of get_first_n_words. -/
def mainRun (lexFor : String → Option Lexicon) (args : Args) (dump : List Tweet) : RunResult :=
  if args.n_words ≤ 0 then RunResult.configError
  else
    let r := process_lines lexFor args dump (initStats, initWordsDict)
    RunResult.ok r.1 r.2.1 r.2.2 (get_first_n_words r.2.2 args.n_words)

/-- A small lexicon for concrete runs: every text is a single token, and
the token "good" evokes three relevant emotions. -/
def demoLexicon : Lexicon :=
  { tokenize := fun text => [text]
    emotionsOfWord := fun w => if w = "good" then ["joy", "trust", "positive"] else [] }

/-- A concrete tweet used in concrete runs. -/
def demoTweet : Tweet := { full_text := "good", user_id := "u1", lang := "en" }

/-- The words_dict of the ratio example: one word with five occurrences,
ten matched words and four tweets in total. -/
def ratioExampleDict : WordsDict :=
  { counters := [("joy", [("good", 5)])], words := 10, tweets := 4 }

/-- The row that the ratio example must yield. -/
def ratioExampleRow : RankedRow :=
  { word := "good", occurrences := 5, occ_words := 1/2, occ_tweets := 5/4, emotion := "joy" }

/-- The words_dict of the tie-break example: happy and glad tie at five
occurrences, fun has three. -/
def joyTieDict : WordsDict :=
  { counters := [("joy", [("happy", 5), ("glad", 5), ("fun", 3)])], words := 13, tweets := 13 }

/-- The first row of the tie-break example. -/
def joyTieRowHappy : RankedRow :=
  { word := "happy", occurrences := 5, occ_words := 5/13, occ_tweets := 5/13, emotion := "joy" }

/-- The second row of the tie-break example. -/
def joyTieRowGlad : RankedRow :=
  { word := "glad", occurrences := 5, occ_words := 5/13, occ_tweets := 5/13, emotion := "joy" }

/-- A words_dict with the canonical key layout in which the joy emotion
has recorded only two distinct words. -/
def topnExampleDict : WordsDict :=
  { counters := [("positive", []), ("negative", []), ("anger", []),
                 ("anticipation", []), ("disgust", []), ("fear", []),
                 ("joy", [("happy", 5), ("glad", 4)]), ("sadness", []),
                 ("surprise", []), ("trust", [])],
    words := 9, tweets := 3 }

/-- The final words_dict of the one-tweet demo run. -/
def demoFinalDict : WordsDict :=
  { counters := [("positive", [("good", 1)]), ("negative", []), ("anger", []),
                 ("anticipation", []), ("disgust", []), ("fear", []),
                 ("joy", [("good", 1)]), ("sadness", []), ("surprise", []),
                 ("trust", [("good", 1)])],
    words := 1, tweets := 1 }

/-- The positive-emotion row of the demo run. -/
def demoPositiveRow : RankedRow :=
  { word := "good", occurrences := 1, occ_words := 1, occ_tweets := 1,
    emotion := "positive" }

/-- The joy row of the demo run. -/
def demoJoyRow : RankedRow :=
  { word := "good", occurrences := 1, occ_words := 1, occ_tweets := 1,
    emotion := "joy" }

/-- The trust row of the demo run. -/
def demoTrustRow : RankedRow :=
  { word := "good", occurrences := 1, occ_words := 1, occ_tweets := 1,
    emotion := "trust" }

/-! Association list lemmas for the counter updates. -/

@[simp]
theorem lookupCount_cons (w' : String) (n : Nat) (rest : WordCounter) (w : String) :
    lookupCount ((w', n) :: rest) w = if w' = w then n else lookupCount rest w := rfl

@[simp]
theorem lookupEmo_cons (k : String) (c : WordCounter) (rest : EmotionCounters) (e : String) :
    lookupEmo ((k, c) :: rest) e = if k = e then c else lookupEmo rest e := rfl

theorem bumpWord_cons (w' : String) (n : Nat) (rest : WordCounter) (w : String) :
    bumpWord ((w', n) :: rest) w
      = if w' = w then (w', n + 1) :: rest else (w', n) :: bumpWord rest w := rfl

theorem updateEmotion_nil (e w : String) : updateEmotion [] e w = [] := rfl

theorem updateEmotion_cons (k : String) (c : WordCounter) (rest : EmotionCounters)
    (e w : String) :
    updateEmotion ((k, c) :: rest) e w
      = (if k = e then (k, bumpWord c w) else (k, c)) :: updateEmotion rest e w := by
  by_cases h : k = e <;> simp [updateEmotion, h]

theorem lookupCount_bumpWord (c : WordCounter) (w x : String) :
    lookupCount (bumpWord c w) x = lookupCount c x + (if x = w then 1 else 0) := by
  induction c with
  | nil =>
    by_cases h : x = w
    · rw [if_pos h, h]
      simp [bumpWord, lookupCount]
    · have h' : ¬ w = x := fun hh => h hh.symm
      rw [if_neg h]
      simp [bumpWord, lookupCount, h']
  | cons p rest ih =>
    obtain ⟨w', n⟩ := p
    rw [bumpWord_cons]
    by_cases hw : w' = w
    · rw [if_pos hw, lookupCount_cons, lookupCount_cons]
      by_cases hx : w' = x
      · rw [if_pos hx, if_pos hx, if_pos (hx.symm.trans hw)]
      · rw [if_neg hx, if_neg hx,
          if_neg (show ¬ x = w from fun hh => hx (hw.trans hh.symm))]
        omega
    · rw [if_neg hw, lookupCount_cons, lookupCount_cons]
      by_cases hx : w' = x
      · rw [if_pos hx, if_pos hx,
          if_neg (show ¬ x = w from fun hh => hw (hx.trans hh))]
        omega
      · rw [if_neg hx, if_neg hx, ih]

theorem updateEmotion_keys (cs : EmotionCounters) (e w : String) :
    (updateEmotion cs e w).map Prod.fst = cs.map Prod.fst := by
  induction cs with
  | nil => rfl
  | cons p rest ih =>
    obtain ⟨k, c⟩ := p
    rw [updateEmotion_cons]
    by_cases h : k = e <;> simp [h, ih]

theorem lookupEmo_updateEmotion_other (cs : EmotionCounters) (e e' w : String)
    (h : e' ≠ e) : lookupEmo (updateEmotion cs e w) e' = lookupEmo cs e' := by
  induction cs with
  | nil => rfl
  | cons p rest ih =>
    obtain ⟨k, c⟩ := p
    rw [updateEmotion_cons]
    by_cases hk : k = e
    · have hk' : ¬ k = e' := fun hh => h (hh ▸ hk)
      rw [if_pos hk, lookupEmo_cons, lookupEmo_cons, if_neg hk', if_neg hk', ih]
    · rw [if_neg hk, lookupEmo_cons, lookupEmo_cons]
      by_cases hk' : k = e'
      · rw [if_pos hk', if_pos hk']
      · rw [if_neg hk', if_neg hk', ih]

theorem lookupEmo_updateEmotion_self (cs : EmotionCounters) (e w : String)
    (h : e ∈ cs.map Prod.fst) :
    lookupEmo (updateEmotion cs e w) e = bumpWord (lookupEmo cs e) w := by
  induction cs with
  | nil => simp at h
  | cons p rest ih =>
    obtain ⟨k, c⟩ := p
    rw [updateEmotion_cons]
    by_cases hk : k = e
    · rw [if_pos hk, lookupEmo_cons, lookupEmo_cons, if_pos hk, if_pos hk]
    · have h' : e ∈ rest.map Prod.fst := by
        rcases List.mem_map.mp h with ⟨q, hq, hfst⟩
        rcases List.mem_cons.mp hq with rfl | hq'
        · exact absurd hfst hk
        · exact List.mem_map.mpr ⟨q, hq', hfst⟩
      rw [if_neg hk, lookupEmo_cons, lookupEmo_cons, if_neg hk, if_neg hk, ih h']

/-! Lemmas about the per-token processing. -/

theorem applyEmotions_nil (w : String) (cs : EmotionCounters) :
    applyEmotions w [] cs = cs := rfl

theorem applyEmotions_cons (w e' : String) (es : List String) (cs : EmotionCounters) :
    applyEmotions w (e' :: es) cs
      = applyEmotions w es (if e' ∈ RELEVANT_EMOTIONS then updateEmotion cs e' w else cs) := rfl

theorem applyEmotions_keys (w : String) (es : List String) :
    ∀ cs : EmotionCounters, (applyEmotions w es cs).map Prod.fst = cs.map Prod.fst := by
  induction es with
  | nil => intro cs; rfl
  | cons e' es ih =>
    intro cs
    rw [applyEmotions_cons]
    by_cases h : e' ∈ RELEVANT_EMOTIONS
    · rw [if_pos h, ih, updateEmotion_keys]
    · rw [if_neg h, ih]

theorem lookupCount_applyEmotions (w x e : String) (es : List String) :
    ∀ cs : EmotionCounters, es.Nodup → e ∈ RELEVANT_EMOTIONS → e ∈ cs.map Prod.fst →
    lookupCount (lookupEmo (applyEmotions w es cs) e) x
      = lookupCount (lookupEmo cs e) x + (if e ∈ es ∧ x = w then 1 else 0) := by
  induction es with
  | nil => intro cs _ _ _; rw [applyEmotions_nil]; simp
  | cons e' es ih =>
    intro cs hnd he hkey
    rcases List.nodup_cons.mp hnd with ⟨hne, hnd'⟩
    rw [applyEmotions_cons]
    by_cases he' : e' ∈ RELEVANT_EMOTIONS
    · rw [if_pos he']
      have hkey1 : e ∈ (updateEmotion cs e' w).map Prod.fst := by
        rw [updateEmotion_keys]; exact hkey
      rw [ih (updateEmotion cs e' w) hnd' he hkey1]
      by_cases hee : e' = e
      · subst hee
        rw [lookupEmo_updateEmotion_self cs e' w hkey, lookupCount_bumpWord]
        by_cases hxw : x = w <;> simp [hxw, hne]
      · rw [lookupEmo_updateEmotion_other cs e' e w (fun hh => hee hh.symm)]
        have hne' : ¬ e = e' := fun hh => hee hh.symm
        simp [List.mem_cons, hne']
    · rw [if_neg he']
      rw [ih cs hnd' he hkey]
      have hne' : ¬ e = e' := fun hh => he' (hh ▸ he)
      simp [List.mem_cons, hne']

theorem processWord_counters (lex : Lexicon) (st : AggState) (w : String) :
    (processWord lex st w).2.counters
      = applyEmotions w (lex.emotionsOfWord w) st.2.counters := by
  by_cases h : (lex.emotionsOfWord w).isEmpty <;> simp [processWord, h]

theorem processWord_words (lex : Lexicon) (st : AggState) (w : String) :
    (processWord lex st w).2.words
      = st.2.words + (if (lex.emotionsOfWord w).isEmpty then 0 else 1) ∧
    (processWord lex st w).1.words
      = st.1.words + (if (lex.emotionsOfWord w).isEmpty then 0 else 1) := by
  by_cases h : (lex.emotionsOfWord w).isEmpty <;> simp [processWord, h]

theorem processWord_tweets (lex : Lexicon) (st : AggState) (w : String) :
    (processWord lex st w).2.tweets = st.2.tweets ∧
    (processWord lex st w).1.tweets = st.1.tweets := by
  by_cases h : (lex.emotionsOfWord w).isEmpty <;> simp [processWord, h]

theorem processWord_keys (lex : Lexicon) (st : AggState) (w : String) :
    (processWord lex st w).2.counters.map Prod.fst = st.2.counters.map Prod.fst := by
  rw [processWord_counters]
  exact applyEmotions_keys w (lex.emotionsOfWord w) st.2.counters

theorem foldTokens_tweets (lex : Lexicon) (tokens : List String) :
    ∀ st : AggState,
      (tokens.foldl (processWord lex) st).2.tweets = st.2.tweets ∧
      (tokens.foldl (processWord lex) st).1.tweets = st.1.tweets := by
  induction tokens with
  | nil => intro st; exact ⟨rfl, rfl⟩
  | cons t ts ih =>
    intro st
    rw [List.foldl_cons]
    exact ⟨((ih (processWord lex st t)).1).trans (processWord_tweets lex st t).1,
           ((ih (processWord lex st t)).2).trans (processWord_tweets lex st t).2⟩

theorem foldTokens_words (lex : Lexicon) (tokens : List String) :
    ∀ st : AggState,
      (tokens.foldl (processWord lex) st).2.words
        = st.2.words + tokens.countP (fun t => !(lex.emotionsOfWord t).isEmpty) ∧
      (tokens.foldl (processWord lex) st).1.words
        = st.1.words + tokens.countP (fun t => !(lex.emotionsOfWord t).isEmpty) := by
  induction tokens with
  | nil => intro st; simp
  | cons t ts ih =>
    intro st
    rw [List.foldl_cons]
    constructor
    · rw [(ih (processWord lex st t)).1, (processWord_words lex st t).1]
      by_cases h : (lex.emotionsOfWord t).isEmpty
      · simp [h, List.countP_cons]
      · simp [h, List.countP_cons]
        omega
    · rw [(ih (processWord lex st t)).2, (processWord_words lex st t).2]
      by_cases h : (lex.emotionsOfWord t).isEmpty
      · simp [h, List.countP_cons]
      · simp [h, List.countP_cons]
        omega

theorem foldTokens_keys (lex : Lexicon) (tokens : List String) :
    ∀ st : AggState,
      (tokens.foldl (processWord lex) st).2.counters.map Prod.fst
        = st.2.counters.map Prod.fst := by
  induction tokens with
  | nil => intro st; rfl
  | cons t ts ih =>
    intro st
    rw [List.foldl_cons, ih (processWord lex st t), processWord_keys]

theorem foldTokens_lookup (lex : Lexicon) (e x : String)
    (hnd : ∀ t, (lex.emotionsOfWord t).Nodup) (he : e ∈ RELEVANT_EMOTIONS)
    (tokens : List String) :
    ∀ st : AggState, e ∈ st.2.counters.map Prod.fst →
    lookupCount (lookupEmo (tokens.foldl (processWord lex) st).2.counters e) x
      = lookupCount (lookupEmo st.2.counters e) x
        + tokens.countP (fun t => decide (x = t ∧ e ∈ lex.emotionsOfWord t)) := by
  induction tokens with
  | nil => intro st _; simp
  | cons t ts ih =>
    intro st hkey
    rw [List.foldl_cons]
    have hkey1 : e ∈ (processWord lex st t).2.counters.map Prod.fst := by
      rw [processWord_keys]; exact hkey
    rw [ih (processWord lex st t) hkey1, processWord_counters,
        lookupCount_applyEmotions t x e (lex.emotionsOfWord t) st.2.counters (hnd t) he hkey]
    by_cases hc : x = t ∧ e ∈ lex.emotionsOfWord t
    · have hc' : e ∈ lex.emotionsOfWord t ∧ x = t := ⟨hc.2, hc.1⟩
      simp [List.countP_cons, hc, hc']
      omega
    · have hc' : ¬(e ∈ lex.emotionsOfWord t ∧ x = t) := fun hh => hc ⟨hh.2, hh.1⟩
      simp [List.countP_cons, hc, hc']

/-! Lemmas about process_tweet and the per-dump fold. -/

theorem process_tweet_skip (lex : Lexicon) (b : Bool) (vu : List String)
    (t : Tweet) (st : AggState) (h : b = true ∧ t.user_id ∉ vu) :
    process_tweet lex b vu t st = st := by
  unfold process_tweet
  rw [if_pos h]

theorem process_tweet_pass_tweets (lex : Lexicon) (b : Bool) (vu : List String)
    (t : Tweet) (st : AggState) (h : ¬(b = true ∧ t.user_id ∉ vu)) :
    (process_tweet lex b vu t st).2.tweets = st.2.tweets + 1 ∧
    (process_tweet lex b vu t st).1.tweets = st.1.tweets + 1 := by
  unfold process_tweet
  rw [if_neg h]
  constructor
  · show ((lex.tokenize t.full_text).foldl (processWord lex) st).2.tweets + 1
      = st.2.tweets + 1
    rw [(foldTokens_tweets lex (lex.tokenize t.full_text) st).1]
  · show ((lex.tokenize t.full_text).foldl (processWord lex) st).1.tweets + 1
      = st.1.tweets + 1
    rw [(foldTokens_tweets lex (lex.tokenize t.full_text) st).2]

theorem process_tweet_pass_state (lex : Lexicon) (b : Bool) (vu : List String)
    (t : Tweet) (st : AggState) (h : ¬(b = true ∧ t.user_id ∉ vu)) :
    (process_tweet lex b vu t st).2.counters
      = ((lex.tokenize t.full_text).foldl (processWord lex) st).2.counters ∧
    (process_tweet lex b vu t st).2.words
      = ((lex.tokenize t.full_text).foldl (processWord lex) st).2.words ∧
    (process_tweet lex b vu t st).1.words
      = ((lex.tokenize t.full_text).foldl (processWord lex) st).1.words := by
  unfold process_tweet
  rw [if_neg h]
  exact ⟨rfl, rfl, rfl⟩

theorem foldTweets_tweets (lex : Lexicon) (b : Bool) (vu : List String)
    (dump : List Tweet) :
    ∀ st : AggState,
      (dump.foldl (fun s t => process_tweet lex b vu t s) st).2.tweets
        = st.2.tweets + dump.countP (fun t => decide (¬(b = true ∧ t.user_id ∉ vu))) ∧
      (dump.foldl (fun s t => process_tweet lex b vu t s) st).1.tweets
        = st.1.tweets + dump.countP (fun t => decide (¬(b = true ∧ t.user_id ∉ vu))) := by
  induction dump with
  | nil => intro st; simp
  | cons t ts ih =>
    intro st
    rw [List.foldl_cons]
    by_cases h : b = true ∧ t.user_id ∉ vu
    · rw [process_tweet_skip lex b vu t st h]
      constructor
      · rw [(ih st).1, List.countP_cons]
        simp [h]
      · rw [(ih st).2, List.countP_cons]
        simp [h]
    · constructor
      · rw [(ih (process_tweet lex b vu t st)).1,
            (process_tweet_pass_tweets lex b vu t st h).1, List.countP_cons]
        simp [h]
        omega
      · rw [(ih (process_tweet lex b vu t st)).2,
            (process_tweet_pass_tweets lex b vu t st h).2, List.countP_cons]
        simp [h]
        omega

/-! The invariant connecting non-empty counters to positive totals. -/

/-- All per-emotion word counters of a words_dict are still empty. -/
def CountersEmpty (wd : WordsDict) : Prop :=
  ∀ p ∈ wd.counters, p.2 = ([] : WordCounter)

/-- Either nothing was ever recorded in the per-emotion counters, or both
the matched-word total and the tweet total are at least one. -/
def TotalsInv (wd : WordsDict) : Prop :=
  CountersEmpty wd ∨ (1 ≤ wd.words ∧ 1 ≤ wd.tweets)

theorem processWord_changes (lex : Lexicon) (st : AggState) (w : String) :
    ((processWord lex st w).2.counters = st.2.counters ∧
     (processWord lex st w).2.words = st.2.words) ∨
    st.2.words + 1 ≤ (processWord lex st w).2.words := by
  by_cases h : (lex.emotionsOfWord w).isEmpty
  · left
    constructor
    · rw [processWord_counters]
      have he : lex.emotionsOfWord w = [] := by
        simpa using h
      rw [he, applyEmotions_nil]
    · rw [(processWord_words lex st w).1, if_pos h]
      omega
  · right
    rw [(processWord_words lex st w).1, if_neg h]

theorem foldTokens_changes (lex : Lexicon) (tokens : List String) :
    ∀ st : AggState,
      ((tokens.foldl (processWord lex) st).2.counters = st.2.counters ∧
       (tokens.foldl (processWord lex) st).2.words = st.2.words) ∨
      1 ≤ (tokens.foldl (processWord lex) st).2.words := by
  induction tokens with
  | nil => intro st; exact Or.inl ⟨rfl, rfl⟩
  | cons t ts ih =>
    intro st
    rw [List.foldl_cons]
    rcases processWord_changes lex st t with ⟨hc, hw⟩ | hw
    · rcases ih (processWord lex st t) with ⟨hc2, hw2⟩ | hw2
      · exact Or.inl ⟨hc2.trans hc, hw2.trans hw⟩
      · exact Or.inr hw2
    · right
      have hmono := (foldTokens_words lex ts (processWord lex st t)).1
      omega

theorem process_tweet_TotalsInv (lex : Lexicon) (b : Bool) (vu : List String)
    (t : Tweet) (st : AggState) (h : TotalsInv st.2) :
    TotalsInv (process_tweet lex b vu t st).2 := by
  by_cases hp : b = true ∧ t.user_id ∉ vu
  · rw [process_tweet_skip lex b vu t st hp]; exact h
  · have hcs := (process_tweet_pass_state lex b vu t st hp).1
    have hws := (process_tweet_pass_state lex b vu t st hp).2.1
    have htw := (process_tweet_pass_tweets lex b vu t st hp).1
    rcases foldTokens_changes lex (lex.tokenize t.full_text) st with ⟨hc, hw⟩ | hw
    · rcases h with hE | ⟨h1, h2⟩
      · refine Or.inl ?_
        intro p hmem
        refine hE p ?_
        rw [hcs, hc] at hmem
        exact hmem
      · refine Or.inr ⟨?_, ?_⟩
        · rw [hws, hw]; exact h1
        · rw [htw]; omega
    · refine Or.inr ⟨?_, ?_⟩
      · rw [hws]; exact hw
      · rw [htw]; omega

theorem foldTweets_TotalsInv (lex : Lexicon) (b : Bool) (vu : List String)
    (dump : List Tweet) :
    ∀ st : AggState, TotalsInv st.2 →
      TotalsInv ((dump.foldl (fun s t => process_tweet lex b vu t s) st)).2 := by
  induction dump with
  | nil => intro st h; exact h
  | cons t ts ih =>
    intro st h
    rw [List.foldl_cons]
    exact ih _ (process_tweet_TotalsInv lex b vu t st h)

theorem initWordsDict_CountersEmpty : CountersEmpty initWordsDict := by
  intro p hp
  rcases List.mem_map.mp hp with ⟨e, _, rfl⟩
  rfl

theorem process_lines_users_abort (lexFor : String → Option Lexicon) (args : Args)
    (first : Tweet) (rest : List Tweet) (st : AggState)
    (hu : checkUsers args = none) :
    process_lines lexFor args (first :: rest) st = (none, st) := by
  simp [process_lines, hu]

theorem process_lines_noLex (lexFor : String → Option Lexicon) (args : Args)
    (first : Tweet) (rest : List Tweet) (st : AggState)
    (ufSet : Bool) (vu : List String)
    (hu : checkUsers args = some (ufSet, vu)) (hl : lexFor first.lang = none) :
    process_lines lexFor args (first :: rest) st = (none, st) := by
  simp [process_lines, hu, hl]

theorem process_lines_run (lexFor : String → Option Lexicon) (args : Args)
    (first : Tweet) (rest : List Tweet) (st : AggState)
    (ufSet : Bool) (vu : List String) (lex : Lexicon)
    (hu : checkUsers args = some (ufSet, vu)) (hl : lexFor first.lang = some lex) :
    process_lines lexFor args (first :: rest) st
      = (some first.lang, runDump lex ufSet vu first rest st) := by
  simp [process_lines, hu, hl]

theorem process_lines_TotalsInv (lexFor : String → Option Lexicon) (args : Args)
    (dump : List Tweet) (st : AggState) (h : TotalsInv st.2) :
    TotalsInv (process_lines lexFor args dump st).2.2 := by
  cases dump with
  | nil => exact h
  | cons first rest =>
    rcases hu : checkUsers args with _ | ⟨ufSet, vu⟩
    · rw [process_lines_users_abort lexFor args first rest st hu]; exact h
    · rcases hl : lexFor first.lang with _ | lex
      · rw [process_lines_noLex lexFor args first rest st ufSet vu hu hl]; exact h
      · rw [process_lines_run lexFor args first rest st ufSet vu lex hu hl]
        exact foldTweets_TotalsInv lex ufSet vu rest _
          (process_tweet_TotalsInv lex ufSet vu first st h)

/-! Lemmas about the ranking. -/

theorem insertDesc_length (x : String × Nat) (l : List (String × Nat)) :
    (insertDesc x l).length = l.length + 1 := by
  induction l with
  | nil => rfl
  | cons y ys ih =>
    unfold insertDesc
    by_cases h : x.2 < y.2
    · rw [if_pos h]
      simp [ih]
    · rw [if_neg h]
      simp

theorem sortDescStable_length (l : List (String × Nat)) :
    (sortDescStable l).length = l.length := by
  induction l with
  | nil => rfl
  | cons x xs ih =>
    unfold sortDescStable
    rw [insertDesc_length, ih]
    rfl

theorem rankEmotion_length (wd : WordsDict) (n : Int) (e : String) (c : WordCounter) :
    (rankEmotion wd n e c).length = min n.toNat c.length := by
  unfold rankEmotion
  simp only [List.length_map, List.length_take, sortDescStable_length]
  by_cases h : (c.length : Int) ≥ n
  · rw [if_pos h]
  · rw [if_neg h]
    omega

theorem rankEmotion_nil (wd : WordsDict) (n : Int) (e : String) :
    rankEmotion wd n e [] = [] := by
  unfold rankEmotion
  simp [sortDescStable]

theorem mem_rankEmotion (wd : WordsDict) (n : Int) (e : String) (c : WordCounter)
    (r : RankedRow) (h : r ∈ rankEmotion wd n e c) :
    r.emotion = e ∧ r.occ_words = (r.occurrences : ℚ) / (wd.words : ℚ) ∧
    r.occ_tweets = (r.occurrences : ℚ) / (wd.tweets : ℚ) := by
  unfold rankEmotion at h
  rcases List.mem_map.mp h with ⟨w, _, rfl⟩
  exact ⟨rfl, rfl, rfl⟩

theorem rankEmotion_filter_self (wd : WordsDict) (n : Int) (e : String) (c : WordCounter) :
    (rankEmotion wd n e c).filter (fun r => decide (r.emotion = e))
      = rankEmotion wd n e c := by
  apply List.filter_eq_self.mpr
  intro r hr
  simp [(mem_rankEmotion wd n e c r hr).1]

theorem rankEmotion_filter_other (wd : WordsDict) (n : Int) (e' : String)
    (c : WordCounter) (e : String) (h : e' ≠ e) :
    (rankEmotion wd n e' c).filter (fun r => decide (r.emotion = e)) = [] := by
  apply List.filter_eq_nil_iff.mpr
  intro r hr
  simp [(mem_rankEmotion wd n e' c r hr).1, h]

theorem rankAll_cons (wd : WordsDict) (n : Int) (e : String) (c : WordCounter)
    (rest : EmotionCounters) :
    rankAll wd n ((e, c) :: rest)
      = if e ∈ RELEVANT_EMOTIONS then rankEmotion wd n e c ++ rankAll wd n rest
        else rankAll wd n rest := rfl

theorem rankAll_filter_not_mem (wd : WordsDict) (n : Int) (e : String) :
    ∀ cs : EmotionCounters, e ∉ cs.map Prod.fst →
      (rankAll wd n cs).filter (fun r => decide (r.emotion = e)) = [] := by
  intro cs
  induction cs with
  | nil => intro _; rfl
  | cons p rest ih =>
    obtain ⟨e', c⟩ := p
    intro h
    have h1 : e' ≠ e := by
      intro hh
      exact h (by simp [hh])
    have h2 : e ∉ rest.map Prod.fst := by
      intro hh
      exact h (by simp [hh])
    rw [rankAll_cons]
    by_cases hrel : e' ∈ RELEVANT_EMOTIONS
    · rw [if_pos hrel, List.filter_append,
          rankEmotion_filter_other wd n e' c e h1, ih h2, List.nil_append]
    · rw [if_neg hrel, ih h2]

theorem rankAll_filter_length (wd : WordsDict) (n : Int) (e : String)
    (he : e ∈ RELEVANT_EMOTIONS) :
    ∀ cs : EmotionCounters, (cs.map Prod.fst).Nodup → e ∈ cs.map Prod.fst →
      ((rankAll wd n cs).filter (fun r => decide (r.emotion = e))).length
        = min n.toNat (lookupEmo cs e).length := by
  intro cs
  induction cs with
  | nil => intro _ hmem; simp at hmem
  | cons p rest ih =>
    obtain ⟨e', c⟩ := p
    intro hnd hmem
    have hnd2 : (e' :: rest.map Prod.fst).Nodup := by simpa using hnd
    have hne' : e' ∉ rest.map Prod.fst := (List.nodup_cons.mp hnd2).1
    have hnd' : (rest.map Prod.fst).Nodup := (List.nodup_cons.mp hnd2).2
    rw [rankAll_cons]
    by_cases hee : e' = e
    · subst hee
      rw [if_pos he, List.filter_append, rankEmotion_filter_self,
          rankAll_filter_not_mem wd n e' rest hne', List.append_nil,
          rankEmotion_length]
      simp
    · have hmem2 : e = e' ∨ ∃ c', (e, c') ∈ rest := by simpa using hmem
      have hmem' : e ∈ rest.map Prod.fst := by
        rcases hmem2 with h1 | ⟨c', hc'⟩
        · exact absurd h1.symm hee
        · exact List.mem_map.mpr ⟨(e, c'), hc', rfl⟩
      by_cases hrel : e' ∈ RELEVANT_EMOTIONS
      · rw [if_pos hrel, List.filter_append,
            rankEmotion_filter_other wd n e' c e hee, List.nil_append,
            ih hnd' hmem']
        simp [hee]
      · rw [if_neg hrel, ih hnd' hmem']
        simp [hee]

theorem mem_rankAll_ratios (wd : WordsDict) (n : Int) (r : RankedRow) :
    ∀ cs : EmotionCounters, r ∈ rankAll wd n cs →
      r.occ_words = (r.occurrences : ℚ) / (wd.words : ℚ) ∧
      r.occ_tweets = (r.occurrences : ℚ) / (wd.tweets : ℚ) := by
  intro cs
  induction cs with
  | nil => intro h; simp [rankAll] at h
  | cons p rest ih =>
    obtain ⟨e, c⟩ := p
    intro h
    rw [rankAll_cons] at h
    by_cases hrel : e ∈ RELEVANT_EMOTIONS
    · rw [if_pos hrel] at h
      rcases List.mem_append.mp h with h1 | h1
      · exact (mem_rankEmotion wd n e c r h1).2
      · exact ih h1
    · rw [if_neg hrel] at h
      exact ih h

theorem mem_rankAll_counter_ne_nil (wd : WordsDict) (n : Int) (r : RankedRow) :
    ∀ cs : EmotionCounters, r ∈ rankAll wd n cs →
      ∃ p ∈ cs, p.2 ≠ ([] : WordCounter) := by
  intro cs
  induction cs with
  | nil => intro h; simp [rankAll] at h
  | cons p rest ih =>
    obtain ⟨e, c⟩ := p
    intro h
    rw [rankAll_cons] at h
    by_cases hrel : e ∈ RELEVANT_EMOTIONS
    · rw [if_pos hrel] at h
      rcases List.mem_append.mp h with h1 | h1
      · by_cases hc : c = []
        · subst hc
          rw [rankEmotion_nil] at h1
          simp at h1
        · exact ⟨(e, c), List.mem_cons_self _ _, hc⟩
      · rcases ih h1 with ⟨q, hq, hq2⟩
        exact ⟨q, List.mem_cons_of_mem _ hq, hq2⟩
    · rw [if_neg hrel] at h
      rcases ih h with ⟨q, hq, hq2⟩
      exact ⟨q, List.mem_cons_of_mem _ hq, hq2⟩

theorem rankAll_of_empty (wd : WordsDict) (n : Int) :
    ∀ cs : EmotionCounters, (∀ p ∈ cs, p.2 = ([] : WordCounter)) →
      rankAll wd n cs = [] := by
  intro cs
  induction cs with
  | nil => intro _; rfl
  | cons p rest ih =>
    obtain ⟨e, c⟩ := p
    intro h
    have hc : c = [] := h (e, c) (List.mem_cons_self _ _)
    subst hc
    have ht := ih (fun q hq => h q (List.mem_cons_of_mem _ hq))
    rw [rankAll_cons]
    by_cases hrel : e ∈ RELEVANT_EMOTIONS
    · rw [if_pos hrel, rankEmotion_nil, ht, List.nil_append]
    · rw [if_neg hrel, ht]

theorem get_first_n_words_init (n : Int) :
    get_first_n_words initWordsDict n = [] :=
  rankAll_of_empty initWordsDict n initWordsDict.counters initWordsDict_CountersEmpty

/-! The claims. -/

/-- C1: for a post that passes the user filter, process_tweet adds exactly
one to both global matched-word totals for every token occurrence whose
emotion set is non-empty, and exactly one to the per-word counter of each
relevant emotion of the token: for every relevant emotion e and word x,
the counter of e at x grows by the number of token occurrences equal to x
whose emotion set contains e, so a token with k relevant emotions adds 1
to the global counter and 1 to each of the k emotion counters. -/
theorem process_tweet_token_counting (lex : Lexicon) (b : Bool) (vu : List String)
    (tweet : Tweet) (st : AggState)
    (hpass : ¬(b = true ∧ tweet.user_id ∉ vu))
    (hnd : ∀ t, (lex.emotionsOfWord t).Nodup)
    (hkeys : st.2.counters.map Prod.fst = RELEVANT_EMOTIONS) :
    (process_tweet lex b vu tweet st).2.words
      = st.2.words
        + (lex.tokenize tweet.full_text).countP
            (fun t => !(lex.emotionsOfWord t).isEmpty) ∧
    (process_tweet lex b vu tweet st).1.words
      = st.1.words
        + (lex.tokenize tweet.full_text).countP
            (fun t => !(lex.emotionsOfWord t).isEmpty) ∧
    ∀ e ∈ RELEVANT_EMOTIONS, ∀ x : String,
      lookupCount (lookupEmo (process_tweet lex b vu tweet st).2.counters e) x
        = lookupCount (lookupEmo st.2.counters e) x
          + (lex.tokenize tweet.full_text).countP
              (fun t => decide (x = t ∧ e ∈ lex.emotionsOfWord t)) := by
  have hstate := process_tweet_pass_state lex b vu tweet st hpass
  refine ⟨?_, ?_, ?_⟩
  · rw [hstate.2.1, (foldTokens_words lex (lex.tokenize tweet.full_text) st).1]
  · rw [hstate.2.2, (foldTokens_words lex (lex.tokenize tweet.full_text) st).2]
  · intro e he x
    have hkey : e ∈ st.2.counters.map Prod.fst := by rw [hkeys]; exact he
    rw [hstate.1,
        foldTokens_lookup lex e x hnd he (lex.tokenize tweet.full_text) st hkey]

/-- Witness for C1: one post whose single token evokes three relevant
emotions, starting from the freshly initialized state. -/
theorem process_tweet_token_counting_witness :
    (process_tweet demoLexicon false [] demoTweet (initStats, initWordsDict)).2.words
      = (initStats, initWordsDict).2.words
        + (demoLexicon.tokenize demoTweet.full_text).countP
            (fun t => !(demoLexicon.emotionsOfWord t).isEmpty) ∧
    lookupCount (lookupEmo
        (process_tweet demoLexicon false [] demoTweet
          (initStats, initWordsDict)).2.counters "joy") "good"
      = lookupCount (lookupEmo (initStats, initWordsDict).2.counters "joy") "good"
        + (demoLexicon.tokenize demoTweet.full_text).countP
            (fun t => decide ("good" = t ∧ "joy" ∈ demoLexicon.emotionsOfWord t)) :=
  ⟨(process_tweet_token_counting demoLexicon false [] demoTweet
      (initStats, initWordsDict) (by decide)
      (fun t => by by_cases h : t = "good" <;> simp [demoLexicon, h])
      (by decide)).1,
   (process_tweet_token_counting demoLexicon false [] demoTweet
      (initStats, initWordsDict) (by decide)
      (fun t => by by_cases h : t = "good" <;> simp [demoLexicon, h])
      (by decide)).2.2 "joy" (by decide) "good"⟩

/-- C2: a post rejected by the user filter leaves the whole aggregation
state unchanged, after folding the aggregator over any dump both tweet
totals have grown by exactly the number of posts that passed the filter
(posts with matching tokens or not alike), and with no users file
configured every post of the dump counts. -/
theorem total_posts_conservation :
    (∀ (lex : Lexicon) (b : Bool) (vu : List String) (t : Tweet) (st : AggState),
       b = true ∧ t.user_id ∉ vu → process_tweet lex b vu t st = st) ∧
    (∀ (lex : Lexicon) (b : Bool) (vu : List String) (dump : List Tweet) (st : AggState),
       (dump.foldl (fun s t => process_tweet lex b vu t s) st).2.tweets
         = st.2.tweets
           + dump.countP (fun t => decide (¬(b = true ∧ t.user_id ∉ vu))) ∧
       (dump.foldl (fun s t => process_tweet lex b vu t s) st).1.tweets
         = st.1.tweets
           + dump.countP (fun t => decide (¬(b = true ∧ t.user_id ∉ vu)))) ∧
    (∀ (lex : Lexicon) (vu : List String) (dump : List Tweet) (st : AggState),
       (dump.foldl (fun s t => process_tweet lex false vu t s) st).2.tweets
         = st.2.tweets + dump.length) := by
  refine ⟨?_, ?_, ?_⟩
  · intro lex b vu t st h
    exact process_tweet_skip lex b vu t st h
  · intro lex b vu dump st
    exact foldTweets_tweets lex b vu dump st
  · intro lex vu dump st
    rw [(foldTweets_tweets lex false vu dump st).1]
    simp

/-- Witness for C2: a post whose author is outside the allow-list changes
nothing. -/
theorem total_posts_conservation_witness :
    process_tweet demoLexicon true ["u2"] demoTweet (initStats, initWordsDict)
      = (initStats, initWordsDict) :=
  total_posts_conservation.1 demoLexicon true ["u2"] demoTweet
    (initStats, initWordsDict) ⟨rfl, by decide⟩

/-- C3: under the canonical words_dict layout (the ten relevant emotions
as keys, each per-emotion dict with distinct words), for every relevant
emotion and positive bound the ranker emits exactly
min(bound, number of distinct words recorded for that emotion) rows. -/
theorem topn_clamp (wd : WordsDict) (n : Int) (e : String)
    (hshape : wd.counters.map Prod.fst = RELEVANT_EMOTIONS)
    (_hdistinct : ∀ p ∈ wd.counters, (p.2.map Prod.fst).Nodup)
    (_hn : 0 < n) (he : e ∈ RELEVANT_EMOTIONS) :
    ((get_first_n_words wd n).filter (fun r => decide (r.emotion = e))).length
      = min n.toNat (lookupEmo wd.counters e).length := by
  have hnd : (wd.counters.map Prod.fst).Nodup := by
    rw [hshape]; decide
  have hmem : e ∈ wd.counters.map Prod.fst := by rw [hshape]; exact he
  exact rankAll_filter_length wd n e he wd.counters hnd hmem

/-- Witness for C3: the joy emotion has two distinct recorded words and
the bound is 30, so exactly two rows are emitted for joy. -/
theorem topn_clamp_witness :
    ((get_first_n_words topnExampleDict 30).filter
        (fun r => decide (r.emotion = "joy"))).length
      = min ((30 : Int)).toNat (lookupEmo topnExampleDict.counters "joy").length ∧
    ((get_first_n_words topnExampleDict 30).filter
        (fun r => decide (r.emotion = "joy"))).length = 2 :=
  ⟨topn_clamp topnExampleDict 30 "joy" (by decide) (by decide) (by decide) (by decide),
   by decide⟩

/-- C4: every emitted row carries ratios equal to its own occurrence count
divided by the final word and tweet totals, and the concrete example with
totals 10 and 4 and a word occurring 5 times yields ratios 1/2 and 5/4. -/
theorem ratio_correctness :
    (∀ (wd : WordsDict) (n : Int) (r : RankedRow), r ∈ get_first_n_words wd n →
       r.occ_words = (r.occurrences : ℚ) / (wd.words : ℚ) ∧
       r.occ_tweets = (r.occurrences : ℚ) / (wd.tweets : ℚ)) ∧
    get_first_n_words ratioExampleDict 30 = [ratioExampleRow] := by
  constructor
  · intro wd n r h
    exact mem_rankAll_ratios wd n r wd.counters h
  · norm_num [get_first_n_words, rankAll, rankEmotion, ratioExampleDict,
      ratioExampleRow, sortDescStable, insertDesc, lookupCount, RELEVANT_EMOTIONS]

/-- Witness for C4: the example row is in the example output and its
ratios are its count over the totals. -/
theorem ratio_correctness_witness :
    ratioExampleRow ∈ get_first_n_words ratioExampleDict 30 ∧
    ratioExampleRow.occ_words
      = (ratioExampleRow.occurrences : ℚ) / (ratioExampleDict.words : ℚ) ∧
    ratioExampleRow.occ_tweets
      = (ratioExampleRow.occurrences : ℚ) / (ratioExampleDict.tweets : ℚ) := by
  have hmem : ratioExampleRow ∈ get_first_n_words ratioExampleDict 30 := by
    rw [ratio_correctness.2]
    exact List.mem_singleton_self _
  exact ⟨hmem, ratio_correctness.1 ratioExampleDict 30 ratioExampleRow hmem⟩

/-- C5: the ranker is a pure function of the counters and the bound, so
repeated invocations on equal inputs produce identical row sequences, and
the tie between happy and glad (both at count 5) is resolved
deterministically by the stable sort: insertion order, happy before
glad, on every run. -/
theorem ranking_determinism :
    (∀ (wd1 wd2 : WordsDict) (n1 n2 : Int), wd1 = wd2 → n1 = n2 →
       get_first_n_words wd1 n1 = get_first_n_words wd2 n2) ∧
    get_first_n_words joyTieDict 2 = [joyTieRowHappy, joyTieRowGlad] := by
  constructor
  · intro wd1 wd2 n1 n2 h1 h2
    rw [h1, h2]
  · norm_num [get_first_n_words, rankAll, rankEmotion, joyTieDict, joyTieRowHappy,
      joyTieRowGlad, sortDescStable, insertDesc, lookupCount, RELEVANT_EMOTIONS]
    rfl

/-- Witness for C5: two invocations of the ranker on the tie example give
the same rows. -/
theorem ranking_determinism_witness :
    get_first_n_words joyTieDict 2 = get_first_n_words joyTieDict 2 :=
  ranking_determinism.1 joyTieDict joyTieDict 2 2 rfl rfl

/-- C6: when a users file is configured and get_valid_users fails with
None (file missing or unparseable in both formats), process_lines aborts
before any aggregation: it returns None and leaves the given state
untouched, and under a valid n-words bound the whole run produces no
language, the untouched initial counters and an empty list of ranked
output rows. -/
theorem allowlist_load_failure_aborts (lexFor : String → Option Lexicon)
    (args : Args) (dump : List Tweet) (st : AggState) (f : UsersFileContent)
    (huf : args.users_file = some f)
    (hfail : get_valid_users f = ValidUsers.noneVal) :
    process_lines lexFor args dump st = (none, st) ∧
    (0 < args.n_words →
      mainRun lexFor args dump = RunResult.ok none initStats initWordsDict []) := by
  have hcu : checkUsers args = none := by
    simp [checkUsers, huf, hfail, truthy]
  have habort : ∀ st' : AggState, process_lines lexFor args dump st' = (none, st') := by
    intro st'
    cases dump with
    | nil => rfl
    | cons first rest => exact process_lines_users_abort lexFor args first rest st' hcu
  refine ⟨habort st, ?_⟩
  intro hn
  have hne : ¬ args.n_words ≤ 0 := by omega
  unfold mainRun
  rw [if_neg hne]
  simp only [habort (initStats, initWordsDict)]
  simp [get_first_n_words_init]

/-- Witness for C6: a configured users file whose path does not exist. -/
theorem allowlist_load_failure_aborts_witness :
    process_lines (fun _ => some demoLexicon)
        { users_file := some { fileExists := false, jsonRecords := none,
                               csvRecords := none },
          n_words := 30 } [demoTweet] (initStats, initWordsDict)
      = (none, (initStats, initWordsDict)) ∧
    mainRun (fun _ => some demoLexicon)
        { users_file := some { fileExists := false, jsonRecords := none,
                               csvRecords := none },
          n_words := 30 } [demoTweet]
      = RunResult.ok none initStats initWordsDict [] := by
  have h := allowlist_load_failure_aborts (fun _ => some demoLexicon)
      { users_file := some { fileExists := false, jsonRecords := none,
                             csvRecords := none },
        n_words := 30 } [demoTweet] (initStats, initWordsDict)
      { fileExists := false, jsonRecords := none, csvRecords := none }
      rfl (by decide)
  exact ⟨h.1, h.2 (by decide)⟩

/-- C7: the csv fallback of get_valid_users does not return the id_str
values of a well-formed csv users file: on a file that is not
newline-delimited JSON but is a csv with one record carrying id_str u1,
get_valid_users returns None (the source initializes valid_users to the
dict literal and calls the missing add method, and the raised
AttributeError is swallowed), while the JSON branch on the analogous file
does return the set of identifiers. -/
theorem csv_fallback_returns_failure :
    get_valid_users { fileExists := true, jsonRecords := none,
                      csvRecords := some [some "u1"] } = ValidUsers.noneVal ∧
    get_valid_users { fileExists := true, jsonRecords := some [some "u1"],
                      csvRecords := none } = ValidUsers.usersSet ["u1"] := by
  exact ⟨rfl, rfl⟩

/-- C8: a non-positive n-words bound makes the run exit with a
configuration error before any processing: no post is read, no counter
moves and no output is produced. -/
theorem nonpositive_topn_config_error (lexFor : String → Option Lexicon)
    (args : Args) (dump : List Tweet) (h : args.n_words ≤ 0) :
    mainRun lexFor args dump = RunResult.configError := by
  unfold mainRun
  rw [if_pos h]

/-- Witness for C8: running with n-words zero. -/
theorem nonpositive_topn_config_error_witness :
    mainRun (fun _ => some demoLexicon) { users_file := none, n_words := 0 }
        [demoTweet]
      = RunResult.configError :=
  nonpositive_topn_config_error (fun _ => some demoLexicon)
    { users_file := none, n_words := 0 } [demoTweet] (by decide)

/-- C9: whenever the ranker yields a row out of the state computed by
process_lines from the freshly initialized state, that state has word and
tweet totals of at least one, so neither ratio divides by zero. -/
theorem ranked_row_totals_positive (lexFor : String → Option Lexicon)
    (args : Args) (dump : List Tweet) (n : Int) (r : RankedRow)
    (hr : r ∈ get_first_n_words
            (process_lines lexFor args dump (initStats, initWordsDict)).2.2 n) :
    1 ≤ (process_lines lexFor args dump (initStats, initWordsDict)).2.2.words ∧
    1 ≤ (process_lines lexFor args dump (initStats, initWordsDict)).2.2.tweets := by
  have hinv : TotalsInv (process_lines lexFor args dump (initStats, initWordsDict)).2.2 :=
    process_lines_TotalsInv lexFor args dump (initStats, initWordsDict)
      (Or.inl initWordsDict_CountersEmpty)
  rcases hinv with hE | hpos
  · exfalso
    rcases mem_rankAll_counter_ne_nil
        (process_lines lexFor args dump (initStats, initWordsDict)).2.2 n r
        (process_lines lexFor args dump (initStats, initWordsDict)).2.2.counters hr
      with ⟨p, hp, hne⟩
    exact hne (hE p hp)
  · exact hpos

/-- C10: a users file that loads successfully but yields an empty
collection of identifiers is falsy in Python, so process_lines aborts
exactly as for an unreadable file: it returns the same failure value None
with the state untouched. -/
theorem empty_allowlist_aborts (lexFor : String → Option Lexicon)
    (args : Args) (dump : List Tweet) (st : AggState) (f : UsersFileContent)
    (huf : args.users_file = some f)
    (hload : get_valid_users f = ValidUsers.usersSet [] ∨
             get_valid_users f = ValidUsers.emptyDict) :
    process_lines lexFor args dump st = (none, st) := by
  have hcu : checkUsers args = none := by
    rcases hload with h | h <;> simp [checkUsers, huf, h, truthy]
  cases dump with
  | nil => rfl
  | cons first rest => exact process_lines_users_abort lexFor args first rest st hcu

/-- Witness for C10: a users file holding valid JSON with zero records. -/
theorem empty_allowlist_aborts_witness :
    process_lines (fun _ => some demoLexicon)
        { users_file := some { fileExists := true, jsonRecords := some [],
                               csvRecords := none },
          n_words := 30 } [demoTweet] (initStats, initWordsDict)
      = (none, (initStats, initWordsDict)) :=
  empty_allowlist_aborts (fun _ => some demoLexicon)
    { users_file := some { fileExists := true, jsonRecords := some [],
                           csvRecords := none },
      n_words := 30 } [demoTweet] (initStats, initWordsDict)
    { fileExists := true, jsonRecords := some [], csvRecords := none }
    rfl (Or.inl (by decide))

/-- Witness for C9: the one-tweet demo run yields a positive row and both
totals equal one. -/
theorem ranked_row_totals_positive_witness :
    demoPositiveRow ∈ get_first_n_words
        (process_lines (fun _ => some demoLexicon)
          { users_file := none, n_words := 30 } [demoTweet]
          (initStats, initWordsDict)).2.2 30 ∧
    1 ≤ (process_lines (fun _ => some demoLexicon)
          { users_file := none, n_words := 30 } [demoTweet]
          (initStats, initWordsDict)).2.2.words ∧
    1 ≤ (process_lines (fun _ => some demoLexicon)
          { users_file := none, n_words := 30 } [demoTweet]
          (initStats, initWordsDict)).2.2.tweets := by
  have hstate : (process_lines (fun _ => some demoLexicon)
      { users_file := none, n_words := 30 } [demoTweet]
      (initStats, initWordsDict)).2.2 = demoFinalDict := by decide
  have hrows : get_first_n_words demoFinalDict 30
      = [demoPositiveRow, demoJoyRow, demoTrustRow] := by
    norm_num [get_first_n_words, rankAll, rankEmotion, demoFinalDict, demoPositiveRow,
      demoJoyRow, demoTrustRow, sortDescStable, insertDesc, lookupCount, RELEVANT_EMOTIONS]
  have hmem : demoPositiveRow ∈ get_first_n_words
      (process_lines (fun _ => some demoLexicon)
        { users_file := none, n_words := 30 } [demoTweet]
        (initStats, initWordsDict)).2.2 30 := by
    rw [hstate, hrows]
    exact List.mem_cons_self _ _
  exact ⟨hmem, ranked_row_totals_positive (fun _ => some demoLexicon)
    { users_file := none, n_words := 30 } [demoTweet] 30 demoPositiveRow hmem⟩
